import Mathlib

/-!
# DlesFormatter — verification of the puzzle-results formatter

A shallow embedding, in Lean 4, of the core of the DlesFormatter repository
(`formatter.py` and the `puzzle_formatters` package), together with theorems
settling the frozen claims about its natural-language specification.

Conventions of the embedding:

* Python strings are Lean `String`s; the text-rewriting passes of the block
  segmenter work over `List Char` (`String.toList`), which matches Python's
  per-character regex scanning.
* The regular expressions used by the source are all of a simple "literal /
  character-class / star-plus" shape in which greedy maximal-munch matching
  coincides with backtracking semantics (each repetition is followed by a
  literal that its class cannot absorb, except for `Connections\s*\n`, whose
  backtracking is modelled explicitly).  Each pattern is embedded as an
  executable matcher.
* Python's `sorted` (a stable sort) is embedded as Mathlib's stable
  `List.insertionSort`.
* Python's `hash` of a string (used only as a last-resort identity key) is
  modelled collision-freely by the string itself, tagged so that hash-keys
  never compare equal to number-keys (in Python an `int` never equals a
  `str`, so the tag is faithful).
* `load_config` / clipboard I/O are out of scope per the specification: the
  configured `puzzle_order` is passed to `process_puzzle_results` as an
  explicit argument.
-/

/-! ## Basic text primitives -/

/-- The whitespace characters of Python's `str.strip()` / regex `\s`
(restricted to ASCII, which is all the source's inputs use). -/
def pyIsSpace (c : Char) : Bool :=
  c = ' ' || c = '\t' || c = '\n' || c = '\r' || c = '\x0b' || c = '\x0c'

def isDigitCh (c : Char) : Bool :=
  '0' ≤ c && c ≤ '9'

/-- Python `str.strip()` over a character list. -/
def trimL (cs : List Char) : List Char :=
  ((cs.dropWhile pyIsSpace).reverse.dropWhile pyIsSpace).reverse

/-- Does `cs` start with the literal `pre`? -/
def startsWithL : List Char → List Char → Bool
  | [], _ => true
  | _ :: _, [] => false
  | p :: ps, c :: cs => p = c && startsWithL ps cs

/-- Does `m` hold at some position (suffix) of `cs`?  Embeds `re.search`'s
left-to-right scan over all start positions. -/
def searchPos (m : List Char → Bool) : List Char → Bool
  | [] => m []
  | c :: cs => m (c :: cs) || searchPos m (cs : List Char)

/-- Substring containment (`needle in haystack` in Python). -/
def containsSub (needle : List Char) (hay : List Char) : Bool :=
  searchPos (startsWithL needle) hay

/-- Consume the literal `lit`, returning the rest. -/
def matchLit : List Char → List Char → Option (List Char)
  | [], cs => some cs
  | _ :: _, [] => none
  | p :: ps, c :: cs => if p = c then matchLit ps cs else none

/-- Consume one or more characters satisfying `cl`, maximally (`[cl]+`). -/
def matchClass1 (cl : Char → Bool) : List Char → Option (List Char)
  | [] => none
  | c :: cs => if cl c then some (cs.dropWhile cl) else none

/-- Consume `\d+`. -/
def matchDigits1 (cs : List Char) : Option (List Char) :=
  matchClass1 isDigitCh cs

/-- Consume `\d+`, also returning the consumed digits (a capture group). -/
def captureDigits1 : List Char → Option (List Char × List Char)
  | [] => none
  | c :: cs =>
    if isDigitCh c then some (c :: cs.takeWhile isDigitCh, cs.dropWhile isDigitCh)
    else none

/-- `str.startswith` / `str.endswith` on strings, via character lists (the
core `String.startsWith` does not reduce definitionally). -/
def strStarts (s pre : String) : Bool :=
  startsWithL pre.toList s.toList

def strEnds (s suf : String) : Bool :=
  startsWithL suf.toList.reverse s.toList.reverse

/-! ## Detection patterns (`detection_pattern` of each registered formatter)

Each `…At` matcher decides whether the pattern matches at the start of the
given suffix; `re.search` is `searchPos` of the matcher. -/

/-- `Wordle \d+[,\d]* \d+/\d+` (wordle.py). -/
def wordleAt (cs : List Char) : Bool :=
  (do
    let r1 ← matchLit "Wordle ".toList cs
    let r2 ← matchDigits1 r1
    let r3 := r2.dropWhile (fun c => isDigitCh c || c = ',')
    let r4 ← matchLit " ".toList r3
    let r5 ← matchDigits1 r4
    let r6 ← matchLit "/".toList r5
    let _ ← matchDigits1 r6
    pure ()).isSome

/-- `Framed #\d+` (framed.py, plain variant). -/
def framedAt (cs : List Char) : Bool :=
  (do
    let r1 ← matchLit "Framed #".toList cs
    let _ ← matchDigits1 r1
    pure ()).isSome

/-- `Framed - One Frame Challenge #\d+` (framed.py, One Frame variant). -/
def oneFrameAt (cs : List Char) : Bool :=
  (do
    let r1 ← matchLit "Framed - One Frame Challenge #".toList cs
    let _ ← matchDigits1 r1
    pure ()).isSome

/-- The `\s*\n` tail of `Connections\s*\nPuzzle #\d+`, with backtracking:
succeeds if after zero or more whitespace characters a `'\n'` is reached
that is directly followed by `Puzzle #\d+`. -/
def connectionsTail : List Char → Bool
  | [] => false
  | c :: cs =>
    (c = '\n' &&
      (do
        let r1 ← matchLit "Puzzle #".toList cs
        let _ ← matchDigits1 r1
        pure ()).isSome)
    || (pyIsSpace c && connectionsTail cs)

/-- `Connections\s*\nPuzzle #\d+` (connections.py). -/
def connectionsAt (cs : List Char) : Bool :=
  match matchLit "Connections".toList cs with
  | some r => connectionsTail r
  | none => false

/-- `"Quolture"\s+\d+` (quolture.py). -/
def quoltureAt (cs : List Char) : Bool :=
  (do
    let r1 ← matchLit "\"Quolture\"".toList cs
    let r2 ← matchClass1 pyIsSpace r1
    let _ ← matchDigits1 r2
    pure ()).isSome

/-- `Strands #\d+` (strands.py). -/
def strandsAt (cs : List Char) : Bool :=
  (do
    let r1 ← matchLit "Strands #".toList cs
    let _ ← matchDigits1 r1
    pure ()).isSome

/-! ## Block segmenter (`split_into_puzzle_blocks`, formatter.py)

The source applies, in order, seven `re.sub` passes with zero-width
multiline lookaheads `(?=^…)` that insert the literal `PUZZLE_SEPARATOR`
before each header occurrence at a line start, then one `re.sub` pass that
replaces each URL `https?://[^\s]+` by a newline-wrapped separator, then
splits on the separator literal, strips each piece and drops empty pieces. -/

def PUZZLE_SEPARATOR : List Char := "{PUZZLE_SEPARATOR}".toList

/-- The seven header lookahead bodies, in the source's order
(`^Framed\s`, `^Wordle\s`, `^Connections\s*\n`, `^"Quolture"`, `^Strands\s`,
`^Pips\s`, `^#waffle\d+`); each is tested at line-start positions only. -/
def hdrFramed (cs : List Char) : Bool :=
  (matchLit "Framed".toList cs).bind (matchClass1 pyIsSpace) |>.isSome

def hdrWordle (cs : List Char) : Bool :=
  (matchLit "Wordle".toList cs).bind (matchClass1 pyIsSpace) |>.isSome

/-- `Connections\s*\n`: after the literal, a (possibly empty) whitespace run
reaching a `'\n'`. -/
def hdrConnectionsTail : List Char → Bool
  | [] => false
  | c :: cs => c = '\n' || (pyIsSpace c && hdrConnectionsTail cs)

def hdrConnections (cs : List Char) : Bool :=
  match matchLit "Connections".toList cs with
  | some r => hdrConnectionsTail r
  | none => false

def hdrQuolture (cs : List Char) : Bool :=
  (matchLit "\"Quolture\"".toList cs).isSome

def hdrStrands (cs : List Char) : Bool :=
  (matchLit "Strands".toList cs).bind (matchClass1 pyIsSpace) |>.isSome

def hdrPips (cs : List Char) : Bool :=
  (matchLit "Pips".toList cs).bind (matchClass1 pyIsSpace) |>.isSome

def hdrWaffle (cs : List Char) : Bool :=
  (matchLit "#waffle".toList cs).bind matchDigits1 |>.isSome

def headerPatterns : List (List Char → Bool) :=
  [hdrFramed, hdrWordle, hdrConnections, hdrQuolture, hdrStrands, hdrPips, hdrWaffle]

/-- One `re.sub(r'(?=^hdr)', SEP, …, flags=MULTILINE)` pass: at every
line-start position where `hm` matches, insert the separator.  `atStart` is
true at position 0 and after each `'\n'`. -/
def subHGo (hm : List Char → Bool) (atStart : Bool) : List Char → List Char
  | [] => []
  | c :: cs =>
    if atStart && hm (c :: cs) then
      PUZZLE_SEPARATOR ++ c :: subHGo hm (c = '\n') cs
    else
      c :: subHGo hm (c = '\n') cs

def subHeader (hm : List Char → Bool) (cs : List Char) : List Char :=
  subHGo hm true cs

/-- Does `hm` match at some line-start position of `cs` (given flag `b` for
the current position)?  This is the occurrence predicate matching `subHGo`. -/
def hdrOccursGo (hm : List Char → Bool) (b : Bool) : List Char → Bool
  | [] => false
  | c :: cs => (b && hm (c :: cs)) || hdrOccursGo hm (c = '\n') cs

def hdrOccurs (hm : List Char → Bool) (cs : List Char) : Bool :=
  hdrOccursGo hm true cs

/-- `https?://[^\s]+`: the scheme, then one or more (maximally many)
non-whitespace characters.  Returns the rest after the match. -/
def matchUrl (cs : List Char) : Option (List Char) := do
  let r1 ←
    match matchLit "https://".toList cs with
    | some r => some r
    | none => matchLit "http://".toList cs
  matchClass1 (fun c => !pyIsSpace c) r1

/-- `re.sub(url_pattern, '\n{PUZZLE_SEPARATOR}\n', …)`: left-to-right,
non-overlapping.  Fuelled (structural) recursion; every step consumes at
least one input character, so fuel `cs.length` never runs out. -/
def subUrlsF : Nat → List Char → List Char
  | 0, cs => cs
  | _ + 1, [] => []
  | fuel + 1, c :: cs =>
    match matchUrl (c :: cs) with
    | some rest => '\n' :: PUZZLE_SEPARATOR ++ '\n' :: subUrlsF fuel rest
    | none => c :: subUrlsF fuel cs

def subUrls (cs : List Char) : List Char :=
  subUrlsF cs.length cs

/-- Is there a URL match at some position of `cs`? -/
def urlOccurs (cs : List Char) : Bool :=
  searchPos (fun s => (matchUrl s).isSome) cs

/-- `text.split(PUZZLE_SEPARATOR)`, fuelled like `subUrlsF`. -/
def splitSepF : Nat → List Char → List (List Char)
  | 0, cs => [cs]
  | _ + 1, [] => [[]]
  | fuel + 1, c :: cs =>
    if startsWithL PUZZLE_SEPARATOR (c :: cs) then
      [] :: splitSepF fuel (List.drop PUZZLE_SEPARATOR.length (c :: cs))
    else
      match splitSepF fuel cs with
      | [] => [[c]]
      | b :: bs => (c :: b) :: bs

def splitSep (cs : List Char) : List (List Char) :=
  splitSepF cs.length cs

/-- `split_into_puzzle_blocks` (formatter.py): seven header passes, the URL
pass, split on the separator, strip, drop empties. -/
def split_into_puzzle_blocks (text : String) : List String :=
  let withHdrs := headerPatterns.foldl (fun acc hm => subHeader hm acc) text.toList
  let withUrls := subUrls withHdrs
  let blocks := (splitSep withUrls).map trimL
  (blocks.filter (fun b => b ≠ [])).map (fun b => String.mk b)

/-! ## Parsed records and formatters (puzzle_formatters package)

`PuzzleData` is the closed variant set of the dictionaries the seven parse
methods build.  Field access with a Python `.get(key, default)` is embedded
by total getter functions. -/

inductive PuzzleData where
  | framedD (title emoji_grid raw_text : String)
  | wordleD (title : String) (grid_lines : List String) (raw_text : String)
  | quoltureD (lines : List String) (raw_text : String)
  | connectionsD (puzzle_number : String) (grid_lines : List String) (raw_text : String)
  | strandsD (puzzle_number : String) (theme : Option String)
      (emoji_lines : List String) (raw_text : String)
  | pipsD (puzzle_number difficulty emoji time raw_text : String)
  | waffleD (title puzzle_number : String) (grid_lines : List String)
      (streak_info : Option String) (raw_text : String)
deriving DecidableEq

namespace PuzzleData

/-- `data.get('raw_text', '')`. -/
def rawText : PuzzleData → String
  | framedD _ _ r => r
  | wordleD _ _ r => r
  | quoltureD _ r => r
  | connectionsD _ _ r => r
  | strandsD _ _ _ r => r
  | pipsD _ _ _ _ r => r
  | waffleD _ _ _ _ r => r

/-- `'puzzle_number' in data`. -/
def hasPuzzleNumber : PuzzleData → Bool
  | connectionsD .. => true
  | strandsD .. => true
  | pipsD .. => true
  | waffleD .. => true
  | _ => false

/-- `data.get('puzzle_number', '')` (also used for `data['puzzle_number']`
where the source has already ensured the key exists). -/
def puzzleNumber : PuzzleData → String
  | connectionsD n _ _ => n
  | strandsD n _ _ _ => n
  | pipsD n _ _ _ _ => n
  | waffleD _ n _ _ _ => n
  | _ => ""

/-- `data['difficulty']` (pips records). -/
def difficulty : PuzzleData → String
  | pipsD _ d _ _ _ => d
  | _ => ""

/-- `data['title']` (wordle / framed / waffle records). -/
def title : PuzzleData → String
  | framedD t _ _ => t
  | wordleD t _ _ => t
  | waffleD t _ _ _ _ => t
  | _ => ""

/-- `data.get('lines')` (quolture records); `[]` embeds both a missing key
and an empty list (the source only tests truthiness). -/
def linesOf : PuzzleData → List String
  | quoltureD ls _ => ls
  | _ => []

end PuzzleData

/-- Modelled from the spec: `self._parse_lines(text, filter_empty=…)`, the
line-splitting helper that every `parse` method calls, is defined nowhere in
the repository (see claim C1).  Per spec §4.2 step (1) it splits the block
into trimmed lines, dropping empty lines unless the type's layout depends on
counting them (`filter_empty=False`, used only by the unregistered waffle
formatter). -/
def parseLines (text : String) (filterEmpty : Bool) : List String :=
  let ls := (text.toList.splitOn '\n').map trimL
  let ls := if filterEmpty then ls.filter (fun l => l ≠ []) else ls
  ls.map (fun l => String.mk l)

/-- A registered formatter: identity, detector, parser, serializer
(`BasePuzzleFormatter` interface), plus the attribute table of its class
(used for the attribute-resolution semantics of claim C1). -/
structure PuzzleFormatter where
  puzzle_name : String
  can_parse : String → Bool
  parse : String → Option PuzzleData
  format : PuzzleData → String
  /-- The attributes the concrete class defines in the source. -/
  ownAttrs : List String

/-! ### WordleFormatter (wordle.py) -/

def wordle_can_parse (text : String) : Bool :=
  searchPos wordleAt text.toList

def wordle_parse (text : String) : Option PuzzleData :=
  let lines := parseLines text true
  let lines := lines.filter (fun l => !strStarts l "http")
  match lines with
  | t :: g :: gs => some (.wordleD t (g :: gs) text)
  | _ => none

def wordle_format : PuzzleData → String
  | .wordleD t gs _ => String.intercalate "\n" (t :: gs)
  | d => d.rawText

def wordleFormatter : PuzzleFormatter :=
  { puzzle_name := "wordle"
    can_parse := wordle_can_parse
    parse := wordle_parse
    format := wordle_format
    ownAttrs := ["puzzle_name", "detection_pattern", "end_marker_pattern",
                 "can_parse", "parse", "format"] }

/-! ### FramedFormatter and FramedOneFrameFormatter (framed.py) -/

def framed_can_parse (text : String) : Bool :=
  searchPos framedAt text.toList && !containsSub "One Frame".toList text.toList

def framed_parse (text : String) : Option PuzzleData :=
  let lines := parseLines text true
  let lines := lines.filter (fun l => !strStarts l "http")
  match lines with
  | t :: g :: _ => some (.framedD t g text)
  | _ => none

def framed_format : PuzzleData → String
  | .framedD t g _ => t ++ g
  | d => d.rawText

def framedFormatter : PuzzleFormatter :=
  { puzzle_name := "framed_regular"
    can_parse := framed_can_parse
    parse := framed_parse
    format := framed_format
    ownAttrs := ["puzzle_name", "detection_pattern", "end_marker_pattern",
                 "can_parse", "parse", "format"] }

def framedOneFrame_can_parse (text : String) : Bool :=
  searchPos oneFrameAt text.toList

def framedOneFrameFormatter : PuzzleFormatter :=
  { puzzle_name := "framed_oneframe"
    can_parse := framedOneFrame_can_parse
    parse := framed_parse
    format := framed_format
    ownAttrs := ["puzzle_name", "detection_pattern", "end_marker_pattern",
                 "can_parse", "parse", "format"] }

/-! ### QuoltureFormatter (quolture.py) -/

def quolture_can_parse (text : String) : Bool :=
  searchPos quoltureAt text.toList

def quolture_parse (text : String) : Option PuzzleData :=
  let lines := parseLines text true
  let lines := lines.filter (fun l => !strStarts l "http")
  if lines.length < 1 then none
  else some (.quoltureD lines text)

def quolture_format : PuzzleData → String
  | .quoltureD ls _ => String.intercalate " " ls
  | d => d.rawText

def quoltureFormatter : PuzzleFormatter :=
  { puzzle_name := "quolture"
    can_parse := quolture_can_parse
    parse := quolture_parse
    format := quolture_format
    ownAttrs := ["puzzle_name", "detection_pattern", "end_marker_pattern",
                 "can_parse", "parse", "format"] }

/-! ### ConnectionsFormatter (connections.py) -/

def connections_can_parse (text : String) : Bool :=
  searchPos connectionsAt text.toList

/-- Leftmost `re.search(r'Puzzle #(\d+)', line)` capture. -/
def connectionsNumAt (cs : List Char) : Option String := do
  let r1 ← matchLit "Puzzle #".toList cs
  let (ds, _) ← captureDigits1 r1
  pure (String.mk ds)

def searchCapture (m : List Char → Option String) : List Char → Option String
  | [] => m []
  | c :: cs =>
    match m (c :: cs) with
    | some v => some v
    | none => searchCapture m cs

def connectionsEmoji : List Char := "🟦🟪🟩🟨".toList

/-- `re.match(r'^[🟦🟪🟩🟨]+$', line)`: the whole line is one or more
Connections emoji. -/
def connectionsGridLine (l : String) : Bool :=
  l.toList ≠ [] && l.toList.all (fun c => c ∈ connectionsEmoji)

def connections_parse (text : String) : Option PuzzleData :=
  let lines := parseLines text true
  let num := (lines.map (fun l => searchCapture connectionsNumAt l.toList)).findSome? id
  let grid := lines.filter connectionsGridLine
  match num with
  | none => none
  | some n => some (.connectionsD n grid text)

def connections_format : PuzzleData → String
  | .connectionsD n grid _ => String.intercalate "\n" (("Connections #" ++ n) :: grid)
  | d => d.rawText

def connectionsFormatter : PuzzleFormatter :=
  { puzzle_name := "connections"
    can_parse := connections_can_parse
    parse := connections_parse
    format := connections_format
    ownAttrs := ["puzzle_name", "detection_pattern", "end_marker_pattern",
                 "can_parse", "parse", "format"] }

/-! ### StrandsFormatter (strands.py) -/

def strands_can_parse (text : String) : Bool :=
  searchPos strandsAt text.toList

def strandsNumAt (cs : List Char) : Option String := do
  let r1 ← matchLit "Strands #".toList cs
  let (ds, _) ← captureDigits1 r1
  pure (String.mk ds)

def strandsEmoji : List Char := "🔵🟡💡".toList

def strandsEmojiLine (l : String) : Bool :=
  l.toList ≠ [] && l.toList.all (fun c => c ∈ strandsEmoji)

def strands_parse (text : String) : Option PuzzleData :=
  let lines := parseLines text true
  let num := (lines.map (fun l => searchCapture strandsNumAt l.toList)).findSome? id
  match num with
  | none => none
  | some n =>
    let theme := lines.find? (fun l => strStarts l "\"" && strEnds l "\"")
    let emoji := lines.filter strandsEmojiLine
    some (.strandsD n theme emoji text)

def strands_format : PuzzleData → String
  | .strandsD n theme emoji _ =>
    let out := ["Strands #" ++ n]
    let out := match theme with
      | some t => out ++ [t]
      | none => out
    let out := if emoji ≠ [] then out ++ [String.join emoji] else out
    String.intercalate "\n" out
  | d => d.rawText

def strandsFormatter : PuzzleFormatter :=
  { puzzle_name := "strands"
    can_parse := strands_can_parse
    parse := strands_parse
    format := strands_format
    ownAttrs := ["puzzle_name", "detection_pattern", "can_parse", "parse", "format"] }

/-! ### Registry (puzzle_formatters/__init__.py)

`PipsFormatter` (pips.py) and `WaffleFormatter` (waffle.py) exist in the
package but are imported nowhere and are absent from this list. -/

def ALL_FORMATTERS : List PuzzleFormatter :=
  [connectionsFormatter, framedFormatter, framedOneFrameFormatter,
   quoltureFormatter, strandsFormatter, wordleFormatter]

def get_formatter_for_text (text : String) : Option PuzzleFormatter :=
  ALL_FORMATTERS.find? (fun f => f.can_parse text)

/-! ## Detection pipeline (formatter.py) -/

/-- One entry of the `detected_puzzles` list: the dictionary
`{'formatter': …, 'data': …, 'puzzle_name': …}`, plus the optional
`'formatted'` key that `_combine_pips_group` adds. -/
structure DetectedPuzzle where
  formatter : PuzzleFormatter
  data : PuzzleData
  puzzle_name : String
  formatted? : Option String

def detect_and_parse_puzzles (text : String) : List DetectedPuzzle :=
  (split_into_puzzle_blocks text).flatMap (fun block =>
    match get_formatter_for_text block with
    | none => []
    | some f =>
      match f.parse block with
      | none => []
      | some d => [⟨f, d, f.puzzle_name, none⟩])

/-! ### `sort_puzzles_by_config` -/

def UNKNOWN_PUZZLE_PRIORITY : Nat := 9999

/-- `list.index` (first occurrence), with the `ValueError` case as `none`. -/
def listIndex (a : String) : List String → Option Nat
  | [] => none
  | x :: xs => if x = a then some 0 else (listIndex a xs).map (· + 1)

/-- `get_sort_key` (formatter.py): position in the configured order, or the
sentinel `UNKNOWN_PUZZLE_PRIORITY` for types not configured. -/
def get_sort_key (puzzle_order : List String) (p : DetectedPuzzle) : Nat :=
  match listIndex p.puzzle_name puzzle_order with
  | some i => i
  | none => UNKNOWN_PUZZLE_PRIORITY

/-- `sorted(puzzles, key=get_sort_key)`: Python's `sorted` is a stable sort;
it is embedded as Mathlib's stable `List.insertionSort` on the key order. -/
def sort_puzzles_by_config (puzzles : List DetectedPuzzle) (puzzle_order : List String) :
    List DetectedPuzzle :=
  puzzles.insertionSort
    (fun a b => get_sort_key puzzle_order a ≤ get_sort_key puzzle_order b)

/-! ### `_get_puzzle_identity` and `deduplicate_puzzles`

Identity keys are embedded as tagged `List String` values: `[name, "num", …]`
for number-based tuples and `[name, "hash", raw]` for the
`(name, hash(raw_text))` fallback.  In Python a tuple holding an `int` hash
never equals one holding a `str` number, which the tag reproduces; `hash`
itself is modelled collision-freely by the hashed string. -/

/-- Leftmost `re.search(r'Wordle\s+([\d,]+)', title)` capture. -/
def wordleIdNumAt (cs : List Char) : Option String := do
  let r1 ← matchLit "Wordle".toList cs
  let r2 ← matchClass1 pyIsSpace r1
  match r2 with
  | [] => none
  | c :: cs' =>
    if isDigitCh c || c = ',' then
      pure (String.mk (c :: cs'.takeWhile (fun c => isDigitCh c || c = ',')))
    else none

/-- Leftmost `re.search(r'#(\d+)', text)` capture. -/
def hashNumAt (cs : List Char) : Option String := do
  let r1 ← matchLit "#".toList cs
  let (ds, _) ← captureDigits1 r1
  pure (String.mk ds)

/-- Leftmost `re.search(r'"Quolture"\s+(\d+)', line)` capture. -/
def quoltureIdNumAt (cs : List Char) : Option String := do
  let r1 ← matchLit "\"Quolture\"".toList cs
  let r2 ← matchClass1 pyIsSpace r1
  let (ds, _) ← captureDigits1 r2
  pure (String.mk ds)

/-- `str.replace(',', '')`. -/
def stripCommas (s : String) : String :=
  String.mk (s.toList.filter (fun c => c ≠ ','))

/-- `_get_puzzle_identity` (formatter.py).  Note the source's dead branch:
it tests for the names `'framed'` / `'framed_one_frame'`, which are not the
registered names (`'framed_regular'` / `'framed_oneframe'`), so records of
the two framed formatters fall through to the hash fallback. -/
def get_puzzle_identity (p : DetectedPuzzle) : List String :=
  let name := p.puzzle_name
  let data := p.data
  if name = "pips" then
    [name, "num", data.puzzleNumber, data.difficulty]
  else if name = "wordle" then
    match searchCapture wordleIdNumAt data.title.toList with
    | some n => [name, "num", stripCommas n]
    | none => [name, "hash", data.rawText]
  else if name = "framed" || name = "framed_one_frame" then
    if data.hasPuzzleNumber then [name, "num", data.puzzleNumber]
    else
      match searchCapture hashNumAt data.rawText.toList with
      | some n => [name, "num", n]
      | none => [name, "hash", data.rawText]
  else if name = "connections" then [name, "num", data.puzzleNumber]
  else if name = "strands" then [name, "num", data.puzzleNumber]
  else if name = "waffle" then [name, "num", data.puzzleNumber]
  else if name = "quolture" then
    match data.linesOf with
    | l :: _ =>
      match searchCapture quoltureIdNumAt l.toList with
      | some n => [name, "num", n]
      | none => [name, "hash", data.rawText]
    | [] => [name, "hash", data.rawText]
  else [name, "hash", data.rawText]

/-- `deduplicate_puzzles` (formatter.py): the `seen_identities` set is a
list of keys, membership-tested. -/
def dedupGo (seen : List (List String)) : List DetectedPuzzle → List DetectedPuzzle
  | [] => []
  | p :: ps =>
    let identity := get_puzzle_identity p
    if identity ∈ seen then dedupGo seen ps
    else p :: dedupGo (identity :: seen) ps

def deduplicate_puzzles (puzzles : List DetectedPuzzle) : List DetectedPuzzle :=
  dedupGo [] puzzles

/-! ### PipsFormatter (pips.py)

The class exists in the package but is imported nowhere: it is absent from
`ALL_FORMATTERS`, so the pipeline never constructs its records.  It is
embedded because `_combine_pips_group` renders pips records with it. -/

/-- `Pips #\d+ (Easy|Medium|Hard)` (detection pattern of pips.py). -/
def pipsAt (cs : List Char) : Bool :=
  (do
    let r1 ← matchLit "Pips #".toList cs
    let r2 ← matchDigits1 r1
    let r3 ← matchLit " ".toList r2
    match matchLit "Easy".toList r3 with
    | some _ => pure ()
    | none =>
      match matchLit "Medium".toList r3 with
      | some _ => pure ()
      | none =>
        let _ ← matchLit "Hard".toList r3
        pure ()).isSome

def pips_can_parse (text : String) : Bool :=
  searchPos pipsAt text.toList

/-- `re.search(r"Pips #(\d+) (Easy|Medium|Hard) (.)", title)`, all three
captures; `.` is any single (non-newline, but lines carry none) character. -/
def pipsTitleAt (cs : List Char) : Option (String × String × String) := do
  let r1 ← matchLit "Pips #".toList cs
  let (num, r2) ← captureDigits1 r1
  let r3 ← matchLit " ".toList r2
  let (diff, r4) ←
    match matchLit "Easy ".toList r3 with
    | some r => some ("Easy", r)
    | none =>
      match matchLit "Medium ".toList r3 with
      | some r => some ("Medium", r)
      | none =>
        match matchLit "Hard ".toList r3 with
        | some r => some ("Hard", r)
        | none => none
  match r4 with
  | c :: _ => pure (String.mk num, diff, String.mk [c])
  | [] => none

def searchCapture3 (m : List Char → Option (String × String × String)) :
    List Char → Option (String × String × String)
  | [] => m []
  | c :: cs =>
    match m (c :: cs) with
    | some v => some v
    | none => searchCapture3 m cs

def pips_parse (text : String) : Option PuzzleData :=
  let lines := parseLines text true
  match lines with
  | title_line :: time_line :: _ =>
    match searchCapture3 pipsTitleAt title_line.toList with
    | none => none
    | some (num, diff, emoji) => some (.pipsD num diff emoji time_line text)
  | _ => none

def pips_format : PuzzleData → String
  | .pipsD n d e t _ => "Pips #" ++ n ++ " " ++ d ++ " " ++ e ++ " " ++ t
  | d => d.rawText

def pipsFormatter : PuzzleFormatter :=
  { puzzle_name := "pips"
    can_parse := pips_can_parse
    parse := pips_parse
    format := pips_format
    ownAttrs := ["puzzle_name", "detection_pattern", "can_parse", "parse", "format"] }

/-! ### Pips aggregation -/

def PIPS_DIFFICULTY_ORDER (d : String) : Nat :=
  if d = "Easy" then 1 else if d = "Medium" then 2 else if d = "Hard" then 3 else 999

/-- `formatted.split(' ', 2)`: split on single spaces, at most twice. -/
def splitSpace2 (s : String) : List String :=
  match s.toList.splitOn ' ' with
  | [] => [s]
  | [a] => [String.mk a]
  | [a, b] => [String.mk a, String.mk b]
  | a :: b :: rest =>
    [String.mk a, String.mk b,
     String.mk (List.intercalate [' '] rest)]

/-- The render of one entry inside `format_output` / `_combine_pips_group`:
the pre-formatted text if the `'formatted'` key is present, else
`formatter.format(data)`. -/
def renderEntry (p : DetectedPuzzle) : String :=
  match p.formatted? with
  | some f => f
  | none => p.formatter.format p.data

/-- `_combine_pips_group` (formatter.py). -/
def combine_pips_group (pips_puzzles : List DetectedPuzzle) : DetectedPuzzle :=
  let sorted_pips := pips_puzzles.insertionSort
    (fun a b => PIPS_DIFFICULTY_ORDER a.data.difficulty ≤ PIPS_DIFFICULTY_ORDER b.data.difficulty)
  let formatted_parts := sorted_pips.foldl (fun acc p =>
    let formatted := p.formatter.format p.data
    let formatted :=
      if acc ≠ [] then
        match splitSpace2 formatted with
        | _ :: _ :: tail :: _ => tail
        | _ => formatted
      else formatted
    acc ++ [formatted]) []
  let combined := String.intercalate " | " formatted_parts
  match sorted_pips with
  | first :: _ => ⟨first.formatter, first.data, "pips", some combined⟩
  | [] => ⟨wordleFormatter, .pipsD "" "" "" "" "", "pips", some combined⟩
  -- the [] arm is unreachable: both callers in aggregateGo guard the group
  -- nonempty (the source would raise IndexError on sorted_pips[0])

/-- `aggregate_pips_puzzles` (formatter.py): collect runs of `'pips'`
entries, each flushed as one combined entry. -/
def aggregateGo (pips_group : List DetectedPuzzle) :
    List DetectedPuzzle → List DetectedPuzzle
  | [] =>
    match pips_group with
    | [] => []
    | _ => [combine_pips_group pips_group]
  | p :: ps =>
    if p.puzzle_name = "pips" then aggregateGo (pips_group ++ [p]) ps
    else
      match pips_group with
      | [] => p :: aggregateGo [] ps
      | _ => combine_pips_group pips_group :: p :: aggregateGo [] ps

def aggregate_pips_puzzles (puzzles : List DetectedPuzzle) : List DetectedPuzzle :=
  aggregateGo [] puzzles

/-! ### `format_output` and `process_puzzle_results` -/

def isMultiline (s : String) : Bool :=
  containsSub ['\n'] s.toList

/-- `format_output` (formatter.py): fold that inserts a blank part before a
multi-line or pips entry whenever parts have already been emitted. -/
def format_output (puzzles : List DetectedPuzzle) : String :=
  match puzzles with
  | [] => ""
  | _ =>
    let parts := puzzles.foldl (fun acc p =>
      let formatted := renderEntry p
      let acc :=
        if (isMultiline formatted || p.puzzle_name = "pips") && acc ≠ [] then
          acc ++ [""]
        else acc
      acc ++ [formatted]) []
    String.intercalate "\n" parts

def NO_PUZZLES_SENTINEL : String := "No recognized puzzles found in input."

/-- `process_puzzle_results` (formatter.py); the configured
`puzzle_order` is an explicit argument (`load_config` is excluded I/O). -/
def process_puzzle_results (input_text : String) (puzzle_order : List String) : String :=
  let puzzles := detect_and_parse_puzzles input_text
  match puzzles with
  | [] => NO_PUZZLES_SENTINEL
  | _ =>
    let sorted_puzzles := sort_puzzles_by_config puzzles puzzle_order
    let deduplicated_puzzles := deduplicate_puzzles sorted_puzzles
    let aggregated_puzzles := aggregate_pips_puzzles deduplicated_puzzles
    format_output aggregated_puzzles

/-! ## Attribute resolution (claim C1)

`BasePuzzleFormatter` (base.py) defines `puzzle_name`, `detection_pattern`,
`can_parse`, `parse`, `format` and `process`; the further bases `ABC` and
`object` define none of the names of interest.  Every concrete `parse`
implementation begins with `lines = self._parse_lines(text)` (wordle.py:50,
framed.py:45/103, quolture.py:44, connections.py:52, strands.py:70), and
`process` (base.py:80) begins by calling `parse`, so under Python attribute
resolution both raise `AttributeError` when `_parse_lines` resolves on no
class of the method-resolution order. -/

def baseAttrs : List String :=
  ["puzzle_name", "detection_pattern", "can_parse", "parse", "format", "process"]

/-- Python attribute lookup along the MRO `[type(f), BasePuzzleFormatter]`
(`ABC` and `object` contribute none of the relevant names). -/
def resolvesAttr (f : PuzzleFormatter) (a : String) : Bool :=
  a ∈ f.ownAttrs || a ∈ baseAttrs

/-- `parse` with the source's first statement `self._parse_lines(text)`
subject to attribute resolution: `AttributeError` when the name does not
resolve, otherwise the parse body (which uses the spec-modelled
`parseLines`, see `parseLines`). -/
def parse_resolved (f : PuzzleFormatter) (text : String) :
    Except String (Option PuzzleData) :=
  if resolvesAttr f "_parse_lines" then .ok (f.parse text) else .error "AttributeError"

/-- `process` (base.py): parse, then format unless parsing failed;
an exception in `parse` propagates. -/
def process_resolved (f : PuzzleFormatter) (text : String) :
    Except String (Option String) :=
  match parse_resolved f text with
  | .error e => .error e
  | .ok (some d) => .ok (some (f.format d))
  | .ok none => .ok none

/-! ## Spec-side definitions for the claims

`needsSeparator` / `format_output_spec` (claim C7), the completion probe
(claim C10), `dedupSpec` (claim C6) and the concrete records and order lists
of the claim C5 counterexample and witness follow. -/

/-- Does the serializer owe this record a preceding blank line?  Per the
spec: its own rendered text spans multiple lines, or it is the
multi-difficulty (`pips`) record. -/
def needsSeparator (p : DetectedPuzzle) : Bool :=
  isMultiline (renderEntry p) || p.puzzle_name = "pips"

/-- The output-serializer contract in the spec's words: render each record;
before every record other than the first that needs separation, insert one
blank part; join all parts with newlines (so consecutive single-line
non-pips records get no blank line and there is no trailing separator). -/
def format_output_spec : List DetectedPuzzle → String
  | [] => ""
  | p :: rest =>
    String.intercalate "\n"
      (renderEntry p ::
        rest.flatMap (fun q =>
          if needsSeparator q then ["", renderEntry q] else [renderEntry q]))

/-! ### Completion probe (claim C10)

Modelled from the spec: `is_complete` appears nowhere under the repository's
source (only the spec's Completion Detector section describes it).  Per spec
§4.3 it checks each accumulated line against every registered type's
end-marker pattern (the word-guess all-success row `🟩🟩🟩🟩🟩` from
wordle.py, the Framed and Quolture completion URLs; the types whose
`end_marker_pattern` is empty use content-based rules instead), then applies
the word-guess exhaustion rule (six or more 5-symbol grid rows) and the
grid-category counting rule. -/

def wordleAlphabet : List Char := "🟩🟨⬛".toList

/-- The fixed 5-symbol word-guess grid-row pattern: exactly five symbols
from the 3-symbol alphabet. -/
def wordleGridRow (l : String) : Bool :=
  l.toList.length = 5 && l.toList.all (fun c => c ∈ wordleAlphabet)

/-- The fixed 4-symbol grid-category row pattern. -/
def connGridRow (l : String) : Bool :=
  l.toList.length = 4 && l.toList.all (fun c => c ∈ connectionsEmoji)

/-- All symbols of the row identical ("solid"). -/
def solidRow (l : String) : Bool :=
  match l.toList with
  | [] => true
  | c :: rest => rest.all (fun x => x = c)

/-- A line matching some registered end-marker pattern (wordle.py's
all-success row, framed.py's and quolture.py's completion URLs). -/
def lineHasEndMarker (l : String) : Bool :=
  containsSub "🟩🟩🟩🟩🟩".toList l.toList ||
  containsSub "https://framed.wtf".toList l.toList ||
  containsSub "https://www.quolture.com".toList l.toList

/-- Modelled from the spec: `is_complete(accumulated_lines)` (spec §4.3):
true on any end-marker line; else the word-guess exhaustion rule (6+ grid
rows) or the grid-category counting rule. -/
def is_complete (lines : List String) : Bool :=
  lines.any lineHasEndMarker ||
  decide (6 ≤ lines.countP (fun l => wordleGridRow l)) ||
  (let rows := lines.filter connGridRow
   let solid := rows.countP (fun r => solidRow r)
   let mixed := rows.countP (fun r => !solidRow r)
   decide (4 ≤ rows.length) &&
     ((decide (4 ≤ solid) && decide (mixed ≤ 3)) ||
      (decide (4 ≤ mixed) && decide (solid ≤ 2))))

/-! ### First-occurrence deduplication in the spec's words (claim C6) -/

/-- The deduplicator contract in the spec's words: a record is kept exactly
when no record earlier in the list has the same identity key (`prev` holds
all records already scanned, kept or dropped). -/
def dedupSpecGo (prev : List DetectedPuzzle) : List DetectedPuzzle → List DetectedPuzzle
  | [] => []
  | p :: ps =>
    if prev.any (fun q => get_puzzle_identity q = get_puzzle_identity p) then
      dedupSpecGo (prev ++ [p]) ps
    else
      p :: dedupSpecGo (prev ++ [p]) ps

def dedupSpec (puzzles : List DetectedPuzzle) : List DetectedPuzzle :=
  dedupSpecGo [] puzzles

/-! ### Records and order lists for claim C5 -/

/-- A configured order with more entries than the sentinel priority allows:
10000 copies of `"x"` followed by `"y"`, so `"y"` has index 10000. -/
def cxOrderBig : List String := List.replicate 10000 "x" ++ ["y"]

/-- A record whose type `"y"` is configured (at index 10000). -/
def cxConfigured : DetectedPuzzle :=
  ⟨framedFormatter, .framedD "" "" "", "y", none⟩

/-- A record whose type `"z"` is not configured (sentinel 9999). -/
def cxUnconfigured : DetectedPuzzle :=
  ⟨framedFormatter, .framedD "" "" "", "z", none⟩

/-- A detected record of an unconfigured type, for the C5 witness. -/
def cxW1 : DetectedPuzzle :=
  ⟨quoltureFormatter, .quoltureD ["\"Quolture\" 12 3"] "\"Quolture\" 12 3", "quolture", none⟩

/-- A detected record of a configured type, for the C5 witness. -/
def cxW2 : DetectedPuzzle :=
  ⟨wordleFormatter, .wordleD "Wordle 12 1/6" ["🟩🟩🟩🟩🟩"] "Wordle 12 1/6\n🟩🟩🟩🟩🟩",
   "wordle", none⟩

/-! ## Theorems

Helper lemmas come first within each group; the claim theorems are named
`C1_…` to `C10_…` with their witnesses and counterexamples. -/

set_option maxRecDepth 20000

theorem startsWithL_iff (p cs : List Char) :
    startsWithL p cs = true ↔ ∃ r, cs = p ++ r := by
  induction p generalizing cs with
  | nil => simp [startsWithL]
  | cons x xs ih =>
    cases cs with
    | nil => simp [startsWithL]
    | cons c cs =>
      simp only [startsWithL, Bool.and_eq_true, decide_eq_true_eq, ih, List.cons_append,
        List.cons.injEq]
      constructor
      · rintro ⟨rfl, r, rfl⟩; exact ⟨r, rfl, rfl⟩
      · rintro ⟨r, rfl, rfl⟩; exact ⟨rfl, r, rfl⟩

theorem searchPos_iff (m : List Char → Bool) (cs : List Char) :
    searchPos m cs = true ↔ ∃ n, m (cs.drop n) = true := by
  induction cs with
  | nil =>
    simp only [searchPos, List.drop_nil]
    exact ⟨fun h => ⟨0, h⟩, fun ⟨_, h⟩ => h⟩
  | cons c cs ih =>
    simp only [searchPos, Bool.or_eq_true, ih]
    constructor
    · rintro (h | ⟨n, h⟩)
      · exact ⟨0, h⟩
      · exact ⟨n + 1, h⟩
    · rintro ⟨n, h⟩
      cases n with
      | zero => exact Or.inl h
      | succ n => exact Or.inr ⟨n, h⟩

/-- C1: for every input string and every formatter registered in
`ALL_FORMATTERS`, calling `parse` (and hence `process`) raises an
`AttributeError` instead of returning a record or `None`, because every
parse implementation calls `self._parse_lines`, which is defined neither on
`BasePuzzleFormatter` nor on any subclass. -/
theorem C1_parse_raises_attribute_error
    (f : PuzzleFormatter) (hf : f ∈ ALL_FORMATTERS) (text : String) :
    parse_resolved f text = .error "AttributeError" ∧
    process_resolved f text = .error "AttributeError" := by
  have hres : resolvesAttr f "_parse_lines" = false := by
    simp only [ALL_FORMATTERS, List.mem_cons, List.not_mem_nil, or_false] at hf
    rcases hf with rfl | rfl | rfl | rfl | rfl | rfl <;> decide
  constructor
  · simp [parse_resolved, hres]
  · simp [process_resolved, parse_resolved, hres]

/-- C1, witness: the theorem applied to the registered `WordleFormatter` on
a canonical Wordle share text. -/
theorem C1_parse_raises_attribute_error_witness :
    parse_resolved wordleFormatter "Wordle 1,692 4/6\n🟩🟩🟩🟩🟩" =
      .error "AttributeError" ∧
    process_resolved wordleFormatter "Wordle 1,692 4/6\n🟩🟩🟩🟩🟩" =
      .error "AttributeError" :=
  C1_parse_raises_attribute_error wordleFormatter
    (by simp [ALL_FORMATTERS]) "Wordle 1,692 4/6\n🟩🟩🟩🟩🟩"

/-- C4: for every input string, `get_formatter_for_text` never returns a
formatter whose `puzzle_name` is `"pips"` or `"waffle"` — `PipsFormatter`
and `WaffleFormatter` are absent from `ALL_FORMATTERS` — and consequently
`detect_and_parse_puzzles` never produces a record with `puzzle_name`
`"pips"` or `"waffle"`. -/
theorem C4_no_pips_or_waffle_detected (text : String) :
    (∀ f, get_formatter_for_text text = some f →
      f.puzzle_name ≠ "pips" ∧ f.puzzle_name ≠ "waffle") ∧
    (∀ r ∈ detect_and_parse_puzzles text,
      r.puzzle_name ≠ "pips" ∧ r.puzzle_name ≠ "waffle") := by
  have hnames : ∀ f ∈ ALL_FORMATTERS,
      f.puzzle_name ≠ "pips" ∧ f.puzzle_name ≠ "waffle" := by
    intro f hf
    simp only [ALL_FORMATTERS, List.mem_cons, List.not_mem_nil, or_false] at hf
    rcases hf with rfl | rfl | rfl | rfl | rfl | rfl <;> exact ⟨by decide, by decide⟩
  refine ⟨fun f hf => hnames f (List.mem_of_find?_eq_some hf), ?_⟩
  intro r hr
  simp only [detect_and_parse_puzzles, List.mem_flatMap] at hr
  obtain ⟨block, _, hr⟩ := hr
  revert hr
  cases hget : get_formatter_for_text block with
  | none => intro hr; simp at hr
  | some f =>
    cases hp : f.parse block with
    | none => intro hr; simp [hp] at hr
    | some d =>
      intro hr
      simp only [hp, List.mem_singleton] at hr
      subst hr
      exact hnames f (List.mem_of_find?_eq_some hget)

/-- C4, witness: the theorem applied to a Framed share text, on which the
registry returns the `framed_regular` formatter and the pipeline detects
exactly that record. -/
theorem C4_no_pips_or_waffle_detected_witness :
    (framedFormatter.puzzle_name ≠ "pips" ∧ framedFormatter.puzzle_name ≠ "waffle") ∧
    ((⟨framedFormatter,
        .framedD "Framed #1427" "🎥 🟥" "Framed #1427\n🎥 🟥",
        "framed_regular", none⟩ : DetectedPuzzle).puzzle_name ≠ "pips" ∧
      (⟨framedFormatter,
        .framedD "Framed #1427" "🎥 🟥" "Framed #1427\n🎥 🟥",
        "framed_regular", none⟩ : DetectedPuzzle).puzzle_name ≠ "waffle") := by
  have hdet : detect_and_parse_puzzles "Framed #1427\n🎥 🟥" =
      [⟨framedFormatter,
        .framedD "Framed #1427" "🎥 🟥" "Framed #1427\n🎥 🟥",
        "framed_regular", none⟩] := rfl
  refine ⟨(C4_no_pips_or_waffle_detected "Framed #1427\n🎥 🟥").1 framedFormatter rfl, ?_⟩
  exact (C4_no_pips_or_waffle_detected "Framed #1427\n🎥 🟥").2 _
    (hdet ▸ List.mem_singleton_self _)

theorem format_output_fold (rest : List DetectedPuzzle) :
    ∀ acc : List String, acc ≠ [] →
      rest.foldl (fun acc p =>
        let formatted := renderEntry p
        let acc :=
          if (isMultiline formatted || p.puzzle_name = "pips") && acc ≠ [] then
            acc ++ [""]
          else acc
        acc ++ [formatted]) acc =
      acc ++ rest.flatMap (fun q =>
        if needsSeparator q then ["", renderEntry q] else [renderEntry q]) := by
  induction rest with
  | nil => intro acc _; simp
  | cons q rest ih =>
    intro acc hacc
    simp only [List.foldl_cons, List.flatMap_cons]
    have hne : (decide ¬acc = []) = true := by
      simp [hacc]
    by_cases hsep : needsSeparator q = true
    · simp only [needsSeparator] at hsep
      simp only [hsep, hne, Bool.and_self, if_pos, if_true]
      rw [ih (acc ++ [""] ++ [renderEntry q]) (by simp)]
      simp [hsep, needsSeparator, List.append_assoc]
    · simp only [needsSeparator] at hsep
      simp only [Bool.not_eq_true] at hsep
      simp only [hsep, Bool.false_and, if_neg, Bool.false_eq_true, not_false_iff]
      rw [ih (acc ++ [renderEntry q]) (by simp)]
      simp [needsSeparator, hsep, List.append_assoc]

/-- C7: for every ordered list of records, `format_output` joins the
rendered texts with newlines, inserting exactly one blank-line separator
before a record precisely when that record's rendered text spans multiple
lines or the record is of the multi-difficulty (`pips`) type and at least
one record was already emitted before it; no blank line between two
consecutive single-line non-pips records, and no trailing separator. -/
theorem C7_format_output_separator_rule (puzzles : List DetectedPuzzle) :
    format_output puzzles = format_output_spec puzzles := by
  cases puzzles with
  | nil => rfl
  | cons p rest =>
    simp only [format_output, format_output_spec, List.foldl_cons]
    rw [show (if (isMultiline (renderEntry p) || p.puzzle_name = "pips") &&
        (([] : List String) ≠ []) then ([] : List String) ++ [""] else []) ++
        [renderEntry p] = [renderEntry p] by simp]
    rw [format_output_fold rest [renderEntry p] (by simp)]
    simp

/-- C10: `is_complete` returns true whenever the accumulated lines contain
6 or more word-guess grid rows (even with zero all-success rows, since the
exhaustion rule does not consult the end markers), and returns false when
only 5 such lines — and no other end marker — are present. -/
theorem C10_completion_probe (lines : List String) :
    (6 ≤ lines.countP (fun l => wordleGridRow l) → is_complete lines = true) ∧
    (lines.length = 5 →
      (∀ l ∈ lines, wordleGridRow l = true ∧ lineHasEndMarker l = false) →
      is_complete lines = false) := by
  constructor
  · intro h6
    simp only [is_complete, Bool.or_eq_true, decide_eq_true_eq]
    exact Or.inl (Or.inr h6)
  · intro hlen hrows
    have hmark : lines.any lineHasEndMarker = false := by
      rw [Bool.eq_false_iff]
      intro hany
      obtain ⟨l, hl, hml⟩ := List.any_eq_true.mp hany
      exact absurd hml (by simp [(hrows l hl).2])
    have hcount : lines.countP (fun l => wordleGridRow l) ≤ 5 :=
      hlen ▸ List.countP_le_length _
    have hfilter : lines.filter connGridRow = [] := by
      rw [List.filter_eq_nil_iff]
      intro l hl
      have h5 : wordleGridRow l = true := (hrows l hl).1
      simp only [wordleGridRow, Bool.and_eq_true, decide_eq_true_eq] at h5
      simp only [connGridRow, Bool.and_eq_true, decide_eq_true_eq, not_and]
      intro h4
      omega
    simp only [is_complete, hmark, hfilter, Bool.false_or, List.countP_nil,
      List.length_nil, Bool.or_eq_false_iff, decide_eq_false_iff_not]
    refine ⟨by omega, by simp⟩

/-- C10, witness: six grid rows with no all-success row are complete; the
same first five alone are not. -/
theorem C10_completion_probe_witness :
    is_complete ["🟩🟨⬛⬛⬛", "⬛⬛⬛⬛⬛", "🟩🟨🟩⬛⬛", "🟨🟨⬛⬛⬛",
      "🟩🟩🟩🟩⬛", "🟩⬛🟩⬛🟩"] = true ∧
    is_complete ["🟩🟨⬛⬛⬛", "⬛⬛⬛⬛⬛", "🟩🟨🟩⬛⬛", "🟨🟨⬛⬛⬛",
      "🟩🟩🟩🟩⬛"] = false :=
  ⟨(C10_completion_probe _).1 (by decide),
   (C10_completion_probe _).2 (by decide) (by decide)⟩

theorem dedupGo_eq_spec (ps : List DetectedPuzzle) :
    ∀ (seen : List (List String)) (prev : List DetectedPuzzle),
      (∀ k, k ∈ seen ↔ ∃ q ∈ prev, get_puzzle_identity q = k) →
      dedupGo seen ps = dedupSpecGo prev ps := by
  induction ps with
  | nil => intro seen prev _; rfl
  | cons p ps ih =>
    intro seen prev hinv
    have hcond : (get_puzzle_identity p ∈ seen) ↔
        (prev.any (fun q => get_puzzle_identity q = get_puzzle_identity p) = true) := by
      rw [hinv, List.any_eq_true]
      simp
    by_cases hmem : get_puzzle_identity p ∈ seen
    · rw [dedupGo, dedupSpecGo, if_pos hmem, if_pos (hcond.mp hmem)]
      apply ih
      intro k
      rw [hinv]
      constructor
      · rintro ⟨q, hq, rfl⟩; exact ⟨q, by simp [hq], rfl⟩
      · rintro ⟨q, hq, rfl⟩
        rcases List.mem_append.mp hq with h | h
        · exact ⟨q, h, rfl⟩
        · simp only [List.mem_singleton] at h
          subst h
          obtain ⟨q', hq', hk⟩ := (hinv _).mp hmem
          exact ⟨q', hq', hk⟩
    · rw [dedupGo, dedupSpecGo, if_neg hmem,
        if_neg (fun hc => hmem (hcond.mpr hc))]
      congr 1
      apply ih
      intro k
      constructor
      · intro hk
        rcases List.mem_cons.mp hk with rfl | hk'
        · exact ⟨p, List.mem_append.mpr (Or.inr (List.mem_singleton_self p)), rfl⟩
        · obtain ⟨q, hq, hkq⟩ := (hinv k).mp hk'
          exact ⟨q, List.mem_append.mpr (Or.inl hq), hkq⟩
      · rintro ⟨q, hq, rfl⟩
        rcases List.mem_append.mp hq with h | h
        · exact List.mem_cons.mpr (Or.inr ((hinv _).mpr ⟨q, h, rfl⟩))
        · rw [List.mem_singleton] at h
          subst h
          exact List.mem_cons.mpr (Or.inl rfl)

/-- C6, amended: `deduplicate_puzzles` retains exactly the first occurrence
(in current list order) of each distinct `_get_puzzle_identity` key and
drops all later occurrences with an identical key; the key is
`(type, puzzle-number, difficulty)` for pips and `(type, puzzle-number)`
for wordle, connections, strands, waffle and quolture, but for the two
framed formatters the source's name test (`'framed'`/`'framed_one_frame'`
instead of the registered `'framed_regular'`/`'framed_oneframe'`) never
fires, so framed records fall through to the `(type, hash(raw_text))`
fallback and dedupe by exact raw text rather than by puzzle number. -/
theorem C6_dedup_first_occurrence_by_identity (puzzles : List DetectedPuzzle) :
    deduplicate_puzzles puzzles = dedupSpec puzzles ∧
    (∀ (fm : PuzzleFormatter) (d : PuzzleData) (fo : Option String),
      get_puzzle_identity ⟨fm, d, "framed_regular", fo⟩ =
        ["framed_regular", "hash", d.rawText] ∧
      get_puzzle_identity ⟨fm, d, "framed_oneframe", fo⟩ =
        ["framed_oneframe", "hash", d.rawText]) := by
  refine ⟨dedupGo_eq_spec puzzles [] [] (by simp), ?_⟩
  intro fm d fo
  exact ⟨rfl, rfl⟩

/-- C6, counterexample to the claim as stated: two `framed_regular` records
with the same puzzle number `#5` but different raw texts are both retained
by `deduplicate_puzzles` (the claimed `(type, puzzle-number)` key would drop
the second). -/
theorem C6_dedup_framed_counterexample :
    (deduplicate_puzzles
      [⟨framedFormatter, .framedD "Framed #5" "🎥 🟥" "Framed #5\n🎥 🟥",
        "framed_regular", none⟩,
       ⟨framedFormatter, .framedD "Framed #5" "🎥 🟩" "Framed #5\n🎥 🟩",
        "framed_regular", none⟩]).length = 2 ∧
    searchCapture hashNumAt "Framed #5\n🎥 🟥".toList = some "5" ∧
    searchCapture hashNumAt "Framed #5\n🎥 🟩".toList = some "5" := by
  refine ⟨rfl, rfl, rfl⟩

theorem listIndex_eq_none_iff (a : String) (l : List String) :
    listIndex a l = none ↔ a ∉ l := by
  induction l with
  | nil => simp [listIndex]
  | cons x xs ih =>
    simp only [listIndex, List.mem_cons]
    by_cases hx : x = a
    · subst hx
      simp
    · rw [if_neg hx]
      constructor
      · intro h hmem
        have hxs : listIndex a xs = none := by
          cases hli : listIndex a xs with
          | none => rfl
          | some i => rw [hli] at h; simp at h
        rcases hmem with rfl | hmem
        · exact hx rfl
        · exact ih.mp hxs hmem
      · intro h
        rw [ih.mpr (fun hm => h (Or.inr hm))]
        rfl

theorem listIndex_lt_length (a : String) :
    ∀ (l : List String) (i : Nat), listIndex a l = some i → i < l.length := by
  intro l
  induction l with
  | nil => intro i h; simp [listIndex] at h
  | cons x xs ih =>
    intro i h
    simp only [listIndex] at h
    by_cases hx : x = a
    · rw [if_pos hx] at h
      cases h
      simp
    · rw [if_neg hx] at h
      cases hli : listIndex a xs with
      | none => rw [hli] at h; simp at h
      | some j =>
        rw [hli] at h
        simp only [Option.map_some', Option.some.injEq] at h
        have := ih j hli
        simp only [List.length_cons]
        omega

/-- C5, amended: for every list of detected puzzles and every configured
order list of at most `UNKNOWN_PUZZLE_PRIORITY = 9999` entries (so that no
configured index collides with the sentinel), `sort_puzzles_by_config`
returns a stable sort by the index of each puzzle's type in the configured
order: a permutation of the input, pairwise sorted by priority, with every
unconfigured-type puzzle after every configured-type one, and with records
of equal priority keeping their relative input order. -/
theorem C5_sort_stable_by_configured_order
    (ps : List DetectedPuzzle) (order : List String)
    (hlen : order.length ≤ UNKNOWN_PUZZLE_PRIORITY) :
    List.Perm (sort_puzzles_by_config ps order) ps ∧
    (sort_puzzles_by_config ps order).Pairwise
      (fun a b => get_sort_key order a ≤ get_sort_key order b) ∧
    (sort_puzzles_by_config ps order).Pairwise
      (fun a b => a.puzzle_name ∉ order → b.puzzle_name ∉ order) ∧
    (∀ c : Nat,
      (sort_puzzles_by_config ps order).filter (fun p => get_sort_key order p == c) =
        ps.filter (fun p => get_sort_key order p == c)) := by
  haveI htot : IsTotal DetectedPuzzle
      (fun a b => get_sort_key order a ≤ get_sort_key order b) :=
    ⟨fun a b => Nat.le_total _ _⟩
  haveI htrans : IsTrans DetectedPuzzle
      (fun a b => get_sort_key order a ≤ get_sort_key order b) :=
    ⟨fun _ _ _ hab hbc => Nat.le_trans hab hbc⟩
  have hperm : List.Perm (sort_puzzles_by_config ps order) ps :=
    List.perm_insertionSort _ ps
  have hsorted : (sort_puzzles_by_config ps order).Pairwise
      (fun a b => get_sort_key order a ≤ get_sort_key order b) :=
    List.sorted_insertionSort _ ps
  refine ⟨hperm, hsorted, ?_, ?_⟩
  · refine hsorted.imp ?_
    intro a b hle ha hb
    have hkeya : get_sort_key order a = UNKNOWN_PUZZLE_PRIORITY := by
      simp [get_sort_key, (listIndex_eq_none_iff a.puzzle_name order).mpr ha]
    have hkeyb : get_sort_key order b < UNKNOWN_PUZZLE_PRIORITY := by
      cases hidx : listIndex b.puzzle_name order with
      | none => exact absurd ((listIndex_eq_none_iff _ _).mp hidx) (by simp [hb])
      | some i =>
        have := listIndex_lt_length b.puzzle_name order i hidx
        simp only [get_sort_key, hidx]
        omega
    omega
  · intro c
    have hall : ∀ p ∈ ps.filter (fun p => get_sort_key order p == c),
        (fun p => get_sort_key order p == c) p = true :=
      fun p hp => (List.mem_filter.mp hp).2
    have hsub : List.Sublist (ps.filter (fun p => get_sort_key order p == c))
        (sort_puzzles_by_config ps order) := by
      apply List.sublist_insertionSort
      · apply List.pairwise_of_forall_mem_list
        intro a hca b hcb
        have hka := (List.mem_filter.mp hca).2
        have hkb := (List.mem_filter.mp hcb).2
        simp only [beq_iff_eq] at hka hkb
        simp [hka, hkb]
      · exact List.filter_sublist ps
    have hsub2 : List.Sublist (ps.filter (fun p => get_sort_key order p == c))
        ((sort_puzzles_by_config ps order).filter (fun p => get_sort_key order p == c)) := by
      have := hsub.filter (fun p => get_sort_key order p == c)
      rwa [List.filter_eq_self.mpr hall] at this
    have hlensort :
        ((sort_puzzles_by_config ps order).filter (fun p => get_sort_key order p == c)).length =
          (ps.filter (fun p => get_sort_key order p == c)).length :=
      (hperm.filter _).length_eq
    exact (hsub2.eq_of_length hlensort.symm).symm

theorem listIndex_replicate_append (n : Nat) :
    listIndex "y" (List.replicate n "x" ++ ["y"]) = some n := by
  induction n with
  | zero => simp [listIndex]
  | succ n ih =>
    rw [List.replicate_succ, List.cons_append]
    simp only [listIndex]
    rw [if_neg (by decide), ih]
    rfl

theorem insertionSort_pair_of_not {α : Type} (r : α → α → Prop) [DecidableRel r]
    (a b : α) (h : ¬ r a b) : List.insertionSort r [a, b] = [b, a] := by
  simp [List.insertionSort, List.orderedInsert, h]

theorem get_sort_key_of_some (order : List String) (p : DetectedPuzzle) (i : Nat)
    (h : listIndex p.puzzle_name order = some i) : get_sort_key order p = i := by
  unfold get_sort_key
  rw [h]

theorem get_sort_key_of_none (order : List String) (p : DetectedPuzzle)
    (h : listIndex p.puzzle_name order = none) :
    get_sort_key order p = UNKNOWN_PUZZLE_PRIORITY := by
  unfold get_sort_key
  rw [h]

/-- C5, counterexample to the claim as stated: with a configured order list
of 10001 entries, the puzzle whose type sits at configured index 10000 sorts
after a puzzle whose type is absent from the order (sentinel priority 9999),
so a configured-type puzzle does not precede an unconfigured-type one. -/
theorem C5_sort_counterexample :
    sort_puzzles_by_config [cxConfigured, cxUnconfigured] cxOrderBig =
      [cxUnconfigured, cxConfigured] ∧
    cxConfigured.puzzle_name ∈ cxOrderBig ∧
    cxUnconfigured.puzzle_name ∉ cxOrderBig := by
  have hkc : get_sort_key cxOrderBig cxConfigured = 10000 :=
    get_sort_key_of_some cxOrderBig cxConfigured 10000 (listIndex_replicate_append 10000)
  have hz : ("z" : String) ∉ cxOrderBig := by
    intro hmem
    rcases List.mem_append.mp hmem with h | h
    · exact absurd (List.eq_of_mem_replicate h) (by decide)
    · rw [List.mem_singleton] at h
      exact absurd h (by decide)
  have hku : get_sort_key cxOrderBig cxUnconfigured = 9999 :=
    get_sort_key_of_none cxOrderBig cxUnconfigured
      ((listIndex_eq_none_iff "z" cxOrderBig).mpr hz)
  refine ⟨?_, ?_, hz⟩
  · exact insertionSort_pair_of_not _ _ _ (by rw [hkc, hku]; omega)
  · exact List.mem_append.mpr (Or.inr (List.mem_singleton_self _))

/-- C5, witness: the amended theorem applied to a two-record list and the
one-entry configured order `["wordle"]`. -/
theorem C5_sort_stable_by_configured_order_witness :
    List.Perm (sort_puzzles_by_config [cxW1, cxW2] ["wordle"]) [cxW1, cxW2] ∧
    (sort_puzzles_by_config [cxW1, cxW2] ["wordle"]).Pairwise
      (fun a b => get_sort_key ["wordle"] a ≤ get_sort_key ["wordle"] b) ∧
    (sort_puzzles_by_config [cxW1, cxW2] ["wordle"]).Pairwise
      (fun a b => a.puzzle_name ∉ ["wordle"] → b.puzzle_name ∉ ["wordle"]) ∧
    (∀ c : Nat,
      (sort_puzzles_by_config [cxW1, cxW2] ["wordle"]).filter
          (fun p => get_sort_key ["wordle"] p == c) =
        [cxW1, cxW2].filter (fun p => get_sort_key ["wordle"] p == c)) :=
  C5_sort_stable_by_configured_order [cxW1, cxW2] ["wordle"] (by decide)

theorem matchLit_some_iff (p : List Char) :
    ∀ (cs r : List Char), matchLit p cs = some r ↔ cs = p ++ r := by
  induction p with
  | nil =>
    intro cs r
    simp only [matchLit, Option.some.injEq, List.nil_append]
  | cons x xs ih =>
    intro cs r
    cases cs with
    | nil => simp [matchLit]
    | cons c cs =>
      by_cases hx : x = c
      · subst hx
        simp only [matchLit, if_pos rfl, List.cons_append, List.cons.injEq, true_and]
        exact ih cs r
      · simp only [matchLit, if_neg hx, List.cons_append, List.cons.injEq]
        constructor
        · intro h; cases h
        · rintro ⟨h, _⟩; exact absurd h.symm hx

/-- A One Frame detection-pattern match guarantees the literal
`"One Frame"` occurs in the text (nine characters into the matched
header). -/
theorem oneFrame_marker_of_match (t : List Char) (h : searchPos oneFrameAt t = true) :
    containsSub "One Frame".toList t = true := by
  obtain ⟨n, hn⟩ := (searchPos_iff _ t).mp h
  unfold oneFrameAt at hn
  rw [containsSub, searchPos_iff]
  refine ⟨n + 9, ?_⟩
  have hlit : ∃ r, t.drop n = "Framed - One Frame Challenge #".toList ++ r := by
    rcases hml : matchLit "Framed - One Frame Challenge #".toList (t.drop n) with _ | r1
    · rw [hml] at hn
      simp at hn
    · exact ⟨r1, (matchLit_some_iff _ _ _).mp hml⟩
  obtain ⟨r, hr⟩ := hlit
  have hdrop : t.drop (n + 9) = "One Frame Challenge #".toList ++ r := by
    rw [← List.drop_drop, hr]
    rw [show ("Framed - One Frame Challenge #".toList : List Char) =
      "Framed - ".toList ++ "One Frame Challenge #".toList from rfl]
    rw [List.append_assoc]
    exact List.drop_left' (by decide)
  rw [hdrop]
  rw [startsWithL_iff]
  exact ⟨" Challenge #".toList ++ r, by rw [← List.append_assoc]; rfl⟩

/-- C9, amended: a text containing the One Frame marker is never accepted
by the plain Framed detector; a text matching the One Frame pattern is
accepted by the One Frame detector; and on such a text
`get_formatter_for_text` returns the One Frame formatter provided the
earlier-registered Connections detector does not also match (the only
registered detector tried before the One Frame one that can accept such a
text). -/
theorem C9_one_frame_not_shadowed (text : String) :
    (containsSub "One Frame".toList text.toList = true →
      framed_can_parse text = false) ∧
    (searchPos oneFrameAt text.toList = true →
      framedOneFrame_can_parse text = true) ∧
    (searchPos oneFrameAt text.toList = true →
      connections_can_parse text = false →
      get_formatter_for_text text = some framedOneFrameFormatter) := by
  refine ⟨?_, fun h => h, ?_⟩
  · intro hmark
    unfold framed_can_parse
    rw [hmark]
    simp
  · intro hone hconn
    have hframed : framed_can_parse text = false := by
      unfold framed_can_parse
      rw [oneFrame_marker_of_match _ hone]
      simp
    show List.find? _ _ = _
    rw [ALL_FORMATTERS]
    rw [List.find?_cons_of_neg _ (by simpa using hconn),
      List.find?_cons_of_neg _ (by simpa using hframed),
      List.find?_cons_of_pos _ (by simpa using hone)]

/-- C9, counterexample to the final consequence as stated: a text matching
the One Frame pattern that also contains a Connections result is claimed by
the earlier-registered Connections formatter, not the One Frame one. -/
theorem C9_one_frame_shadowed_by_connections_counterexample :
    searchPos oneFrameAt
      "Connections\nPuzzle #1\nFramed - One Frame Challenge #2".toList = true ∧
    get_formatter_for_text "Connections\nPuzzle #1\nFramed - One Frame Challenge #2" =
      some connectionsFormatter ∧
    connectionsFormatter.puzzle_name ≠ framedOneFrameFormatter.puzzle_name :=
  ⟨rfl, rfl, by decide⟩

/-- C9, witness: the amended theorem applied to a canonical One Frame share
text. -/
theorem C9_one_frame_not_shadowed_witness :
    framed_can_parse "Framed - One Frame Challenge #1427\n🎥 🟥" = false ∧
    framedOneFrame_can_parse "Framed - One Frame Challenge #1427\n🎥 🟥" = true ∧
    get_formatter_for_text "Framed - One Frame Challenge #1427\n🎥 🟥" =
      some framedOneFrameFormatter :=
  ⟨(C9_one_frame_not_shadowed _).1 rfl,
   (C9_one_frame_not_shadowed _).2.1 rfl,
   (C9_one_frame_not_shadowed _).2.2 rfl rfl⟩

theorem subHGo_eq_of_no_occur (hm : List Char → Bool) :
    ∀ (cs : List Char) (b : Bool), hdrOccursGo hm b cs = false → subHGo hm b cs = cs := by
  intro cs
  induction cs with
  | nil => intro b _; rfl
  | cons c cs ih =>
    intro b hocc
    simp only [hdrOccursGo, Bool.or_eq_false_iff, Bool.and_eq_false_imp] at hocc
    rw [subHGo]
    rw [if_neg ?hcond]
    · rw [ih _ hocc.2]
    · case hcond =>
      intro hc
      rw [Bool.and_eq_true] at hc
      exact absurd (hocc.1 hc.1) (by simp [hc.2])

theorem subHeader_eq_of_no_occur (hm : List Char → Bool) (cs : List Char)
    (h : hdrOccurs hm cs = false) : subHeader hm cs = cs :=
  subHGo_eq_of_no_occur hm cs true h

theorem foldl_subHeader_eq_of_no_occur :
    ∀ (pats : List (List Char → Bool)) (cs : List Char),
      (∀ hm ∈ pats, hdrOccurs hm cs = false) →
      pats.foldl (fun acc hm => subHeader hm acc) cs = cs := by
  intro pats
  induction pats with
  | nil => intro cs _; rfl
  | cons hm pats ih =>
    intro cs h
    rw [List.foldl_cons, subHeader_eq_of_no_occur hm cs (h hm (List.mem_cons_self hm pats))]
    exact ih cs (fun hm' h' => h hm' (List.mem_cons_of_mem hm h'))

theorem subUrlsF_eq_of_no_occur :
    ∀ (fuel : Nat) (cs : List Char), urlOccurs cs = false → subUrlsF fuel cs = cs := by
  intro fuel
  induction fuel with
  | zero => intro cs _; rfl
  | succ fuel ih =>
    intro cs hocc
    cases cs with
    | nil => rfl
    | cons c cs =>
      simp only [urlOccurs, searchPos, Bool.or_eq_false_iff] at hocc
      rw [subUrlsF]
      rcases hmu : matchUrl (c :: cs) with _ | rest
      · rw [ih cs hocc.2]
      · rw [hmu] at hocc
        simp at hocc

theorem splitSepF_eq_of_no_occur :
    ∀ (fuel : Nat) (cs : List Char), containsSub PUZZLE_SEPARATOR cs = false →
      cs.length ≤ fuel → splitSepF fuel cs = [cs] := by
  intro fuel
  induction fuel with
  | zero =>
    intro cs _ _
    rfl
  | succ fuel ih =>
    intro cs hocc hlen
    cases cs with
    | nil => rfl
    | cons c cs =>
      simp only [containsSub, searchPos, Bool.or_eq_false_iff] at hocc
      simp only [List.length_cons] at hlen
      rw [splitSepF]
      rw [if_neg (by simp [hocc.1])]
      rw [ih cs hocc.2 (by omega)]

/-- C8, amended: for every non-whitespace input text with no occurrence of
any known puzzle header pattern at a line start, no web-address token, and —
the amendment the counterexample forces — no occurrence of the internal
separator literal `{PUZZLE_SEPARATOR}`, `split_into_puzzle_blocks` returns
exactly one segment, the whole input with surrounding whitespace trimmed. -/
theorem C8_single_segment_for_plain_text (text : String)
    (htrim : trimL text.toList ≠ [])
    (hhdr : ∀ hm ∈ headerPatterns, hdrOccurs hm text.toList = false)
    (hurl : urlOccurs text.toList = false)
    (hsep : containsSub PUZZLE_SEPARATOR text.toList = false) :
    split_into_puzzle_blocks text = [String.mk (trimL text.toList)] := by
  unfold split_into_puzzle_blocks
  rw [foldl_subHeader_eq_of_no_occur headerPatterns text.toList hhdr]
  dsimp only
  rw [show subUrls text.toList = text.toList from
    subUrlsF_eq_of_no_occur _ _ hurl]
  rw [show splitSep text.toList = [text.toList] from
    splitSepF_eq_of_no_occur _ _ hsep (Nat.le_refl _)]
  simp only [List.map_cons, List.map_nil, List.filter_cons, List.filter_nil]
  rw [if_pos (decide_eq_true htrim)]
  rfl

/-- C8, counterexample to the claim as stated: the input
`"a{PUZZLE_SEPARATOR}b"` is non-whitespace, matches no header pattern and
contains no web address, yet `split_into_puzzle_blocks` returns two
segments, because the splitter splits on its internal separator literal
whenever the input happens to contain it. -/
theorem C8_separator_literal_counterexample :
    trimL "a{PUZZLE_SEPARATOR}b".toList ≠ [] ∧
    (∀ hm ∈ headerPatterns, hdrOccurs hm "a{PUZZLE_SEPARATOR}b".toList = false) ∧
    urlOccurs "a{PUZZLE_SEPARATOR}b".toList = false ∧
    split_into_puzzle_blocks "a{PUZZLE_SEPARATOR}b" = ["a", "b"] := by
  refine ⟨by decide, ?_, by decide, rfl⟩
  intro hm h
  simp only [headerPatterns, List.mem_cons, List.not_mem_nil, or_false] at h
  rcases h with rfl | rfl | rfl | rfl | rfl | rfl | rfl <;> decide

/-- C8, witness: the amended theorem applied to a plain two-line text. -/
theorem C8_single_segment_for_plain_text_witness :
    split_into_puzzle_blocks " hello\nworld " =
      [String.mk (trimL " hello\nworld ".toList)] := by
  apply C8_single_segment_for_plain_text
  · decide
  · intro hm h
    simp only [headerPatterns, List.mem_cons, List.not_mem_nil, or_false] at h
    rcases h with rfl | rfl | rfl | rfl | rfl | rfl | rfl <;> decide
  · decide
  · decide

/-- C2, amended: `process_puzzle_results` returns the literal sentinel
exactly from its zero-recognized branch; when at least one puzzle is
recognized it returns the serialized pipeline output instead — which is not
the sentinel branch, but can coincide with the sentinel string itself on
contrived inputs (see the counterexample). -/
theorem C2_sentinel_exactly_on_zero_recognized
    (input_text : String) (puzzle_order : List String) :
    (detect_and_parse_puzzles input_text = [] →
      process_puzzle_results input_text puzzle_order = NO_PUZZLES_SENTINEL) ∧
    (detect_and_parse_puzzles input_text ≠ [] →
      process_puzzle_results input_text puzzle_order =
        format_output (aggregate_pips_puzzles (deduplicate_puzzles
          (sort_puzzles_by_config (detect_and_parse_puzzles input_text)
            puzzle_order)))) := by
  constructor
  · intro h
    unfold process_puzzle_results
    rw [h]
  · intro h
    unfold process_puzzle_results
    cases hdet : detect_and_parse_puzzles input_text with
    | nil => exact absurd hdet h
    | cons p ps => rfl

/-- C2, counterexample to the claim as stated: this input is non-empty and
one puzzle is recognized in it (the `framed_regular` detector fires on
`"xFramed #1"`), yet the returned string is exactly the sentinel
`"No recognized puzzles found in input."` — the Framed serializer
concatenates the first two lines into precisely that text. -/
theorem C2_sentinel_counterexample :
    (detect_and_parse_puzzles "No recognized puzzles found i\nn input.\nxFramed #1").length
      = 1 ∧
    process_puzzle_results "No recognized puzzles found i\nn input.\nxFramed #1" [] =
      NO_PUZZLES_SENTINEL :=
  ⟨rfl, rfl⟩

/-- C2, witness: the amended theorem applied to an unrecognizable input
(sentinel branch) and to a Framed share text (formatting branch). -/
theorem C2_sentinel_exactly_on_zero_recognized_witness :
    process_puzzle_results "plain text with no puzzles" [] = NO_PUZZLES_SENTINEL ∧
    process_puzzle_results "Framed #1427\n🎥 🟥" [] =
      format_output (aggregate_pips_puzzles (deduplicate_puzzles
        (sort_puzzles_by_config
          (detect_and_parse_puzzles "Framed #1427\n🎥 🟥") []))) := by
  constructor
  · exact (C2_sentinel_exactly_on_zero_recognized "plain text with no puzzles" []).1 rfl
  · refine (C2_sentinel_exactly_on_zero_recognized "Framed #1427\n🎥 🟥" []).2 ?_
    intro hcon
    have hlen : (detect_and_parse_puzzles "Framed #1427\n🎥 🟥").length = 1 := rfl
    rw [hcon] at hlen
    exact absurd hlen (by decide)

/-- C3, failing input: the three Pips results of puzzle number 173 pasted
as Hard, then Easy, then Medium.  `PipsFormatter` is absent from
`ALL_FORMATTERS`, so nothing is recognized and `process_puzzle_results`
returns the sentinel instead of the combined
`"Pips #173 Easy 🟢 1:25 | Medium 🟡 5:52 | Hard 🔴 35:28"` line that the
spec and the repository's own tests require — even though, as the third
conjunct shows, `_combine_pips_group` applied to the three parsed records
does produce exactly that line (Easy, Medium, Hard order, `" | "` joins,
prefix kept only on the first member). -/
theorem C3_pips_paste_yields_sentinel :
    detect_and_parse_puzzles
      "Pips #173 Hard 🔴\n35:28\n\nPips #173 Easy 🟢\n1:25\n\nPips #173 Medium 🟡\n5:52"
      = [] ∧
    process_puzzle_results
      "Pips #173 Hard 🔴\n35:28\n\nPips #173 Easy 🟢\n1:25\n\nPips #173 Medium 🟡\n5:52"
      [] = NO_PUZZLES_SENTINEL ∧
    renderEntry (combine_pips_group
      [⟨pipsFormatter, .pipsD "173" "Hard" "🔴" "35:28"
          "Pips #173 Hard 🔴\n35:28", "pips", none⟩,
       ⟨pipsFormatter, .pipsD "173" "Easy" "🟢" "1:25"
          "Pips #173 Easy 🟢\n1:25", "pips", none⟩,
       ⟨pipsFormatter, .pipsD "173" "Medium" "🟡" "5:52"
          "Pips #173 Medium 🟡\n5:52", "pips", none⟩]) =
      "Pips #173 Easy 🟢 1:25 | Medium 🟡 5:52 | Hard 🔴 35:28" :=
  ⟨rfl, rfl, rfl⟩
